import Mathlib

/-!
Verification of the client-side data layer of a habit-tracking application
(daily capsule-intake logging).

The development shallowly embeds the logic of:
* the statistics engine (`calculateStats` in `useFirebaseStats` and
  `calculateMonthlyProgress` in `useMonthlyProgress`);
* the record-store mutation paths (`createRecord` / `updateRecord` /
  `deleteRecord` / `getRecordByDate`, both in the `useFirebaseDailyRecords`
  hook and in the `FirebaseRecordsProvider` context), including the
  sync-status assignments, the background retry scheduled by the hook's
  `createRecord`, and the user-facing alert;
* the tutorial gate (`useTutorial` together with
  `SupabaseService.hasUserSeenTutorial`);
* lazy settings creation (`SupabaseService.getUserSettings`).

Modelling conventions:
* A record's `date` string is represented by its parsed timestamp in
  milliseconds (an integer); JavaScript's `toDateString` projection to the
  calendar day is floor division by the number of milliseconds per day.
* Asynchronous backend calls are inputs of the embedded functions: an
  `Except` value describes whether the call succeeded or threw.
* A function that can reject its caller returns `Except`; a function whose
  body catches every error returns a value (or an `Except` that is provably
  always `ok`).
* Fields never read by the verified functions (ids, free-text notes,
  backend-maintained timestamps) are omitted from the structures.
-/

namespace MaxApp

/-- Milliseconds per calendar day. -/
def msPerDay : ℤ := 86400000

/-- One daily intake record (table `daily_records`): `date` is the parsed
timestamp of the record's date string, `capsules` the integer count taken,
`completed` whether the day's goal was fulfilled. -/
structure DailyRecord where
  date : ℤ
  capsules : ℤ
  completed : Bool
deriving DecidableEq

/-- JavaScript `Date.toDateString` projects a timestamp to its calendar day,
dropping the time-of-day component: floor division by `msPerDay`. -/
def toDateString (t : ℤ) : ℤ :=
  t / msPerDay

/-- `records.filter(r => r.completed)` in `calculateStats`. -/
def completedRecords (records : List DailyRecord) : List DailyRecord :=
  records.filter (fun r => r.completed)

/-- The comparator `(a, b) => new Date(b.date).getTime() - new
Date(a.date).getTime()`: `a` sorts before `b` exactly when `b.date ≤
a.date`, yielding descending date order. -/
def byDateDesc (a b : DailyRecord) : Bool :=
  b.date ≤ a.date

/-- `completedRecords.sort((a, b) => new Date(b.date).getTime() - new
Date(a.date).getTime())` in `calculateStats`: the completed records sorted by
descending date. -/
def sortedRecords (records : List DailyRecord) : List DailyRecord :=
  (completedRecords records).mergeSort byDateDesc

/-- The streak loop of `calculateStats`: walking the sorted records, entry `i`
must land on the calendar day `today - i` (comparison via `toDateString`);
the first mismatch breaks the walk. -/
def streakWalk (today : ℤ) : ℕ → List DailyRecord → ℕ
  | _, [] => 0
  | i, r :: rs =>
    if toDateString r.date = today - (i : ℤ) then streakWalk today (i + 1) rs + 1
    else 0

/-- `records.filter(r => new Date(r.date) >= thirtyDaysAgo)` where
`thirtyDaysAgo` is `now` shifted back 30 days. -/
def last30DaysRecords (now : ℤ) (records : List DailyRecord) : List DailyRecord :=
  records.filter (fun r => now - 30 * msPerDay ≤ r.date)

/-- `last30DaysRecords.filter(r => r.completed).length` in `calculateStats`. -/
def completedLast30Days (now : ℤ) (records : List DailyRecord) : ℕ :=
  ((last30DaysRecords now records).filter (fun r => r.completed)).length

/-- Output of `calculateStats` in `useFirebaseStats`. -/
structure Stats where
  totalDays : ℕ
  currentStreak : ℕ
  averageCapsules : ℚ
  completionRate : ℚ
  totalCapsules : ℤ

/-- `calculateStats` of `useFirebaseStats`: `now` is the value of `new Date()`
(as a timestamp) at computation time. -/
def calculateStats (now : ℤ) (records : List DailyRecord) : Stats :=
  let totalDays := (completedRecords records).length
  let totalCapsules := (completedRecords records).foldl (fun sum r => sum + r.capsules) (0 : ℤ)
  let averageCapsules : ℚ := if totalDays > 0 then (totalCapsules : ℚ) / (totalDays : ℚ) else 0
  let currentStreak := streakWalk (toDateString now) 0 (sortedRecords records)
  let completionRate : ℚ := ((completedLast30Days now records : ℚ) / 30) * 100
  { totalDays := totalDays
    currentStreak := currentStreak
    averageCapsules := averageCapsules
    completionRate := completionRate
    totalCapsules := totalCapsules }

/-- Output of `calculateMonthlyProgress` in `useMonthlyProgress`. -/
structure MonthlyProgress where
  completionRate : ℚ
  completedDays : ℕ
  totalDays : ℕ

/-- `calculateMonthlyProgress` of `useMonthlyProgress`. -/
def calculateMonthlyProgress (now : ℤ) (records : List DailyRecord) : MonthlyProgress :=
  let completedDays := ((last30DaysRecords now records).filter (fun r => r.completed)).length
  let completionRate : ℚ := ((completedDays : ℚ) / 30) * 100
  { completionRate := completionRate
    completedDays := completedDays
    totalDays := 30 }

/-- Spec-side restatement of the completion rate, used only to compare with
the implementation: the number of completed records whose date lies in the
trailing 30-day window, divided by the constant 30, times 100. -/
def specCompletionRate (now : ℤ) (records : List DailyRecord) : ℚ :=
  ((records.countP (fun r => r.completed && decide (now - 30 * msPerDay ≤ r.date)) : ℚ) / 30) * 100

/-- A five-day-old account, observed at time `0`: one completed record per
day for the five most recent days. -/
def fiveDayAccount : List DailyRecord :=
  (List.range 5).map (fun i => { date := -(i : ℤ) * msPerDay, capsules := 2, completed := true })

/-- Spec-side count of completed records (`totalDays`). -/
def specTotalDays (records : List DailyRecord) : ℕ :=
  records.countP (fun r => r.completed)

/-- Spec-side sum of `capsules` over completed records (`totalCapsules`). -/
def specTotalCapsules (records : List DailyRecord) : ℤ :=
  ((records.filter (fun r => r.completed)).map (fun r => r.capsules)).sum

/-- The advisory sync status: the state type of `useState<'synced' | 'syncing'
| 'error'>('synced')` in both record-store implementations. -/
inductive SyncStatus where
  | synced
  | syncing
  | error
deriving DecidableEq

/-- Error raised when no user is authenticated, or an error thrown by a
backend call (identified by an abstract code). -/
inductive AppError where
  | noAuthenticatedUser
  | backend (code : ℕ)
deriving DecidableEq

/-- Observable effects of one synchronous run of a mutating record-store
operation: the ordered `setSyncStatus` assignments made before
returning/throwing, the error rethrown to the caller (if any), the delays (ms)
of background retries scheduled via `setTimeout`, the `setSyncStatus`
assignments the scheduled retry will make when it later runs, and whether a
user-facing alert is raised. -/
structure OpRun where
  statuses : List SyncStatus
  callerError : Option AppError
  retryDelays : List ℕ
  retryStatuses : List SyncStatus
  alertShown : Bool
deriving DecidableEq

/-- Status assignments made by the background retry callback of the hook's
`createRecord`: `syncing` on entry, then `synced` on success or `error` on
failure. -/
def retryStatusList (retryRes : Except ℕ Unit) : List SyncStatus :=
  match retryRes with
  | Except.ok _ => [SyncStatus.syncing, SyncStatus.synced]
  | Except.error _ => [SyncStatus.syncing, SyncStatus.error]

/-- The retry callback raises the `Alert.alert('Sync Error', ...)` dialog
exactly when the retried creation fails. -/
def retryAlert (retryRes : Except ℕ Unit) : Bool :=
  match retryRes with
  | Except.ok _ => false
  | Except.error _ => true

/-- `createRecord` of `useFirebaseDailyRecords`. Inputs: whether a user is
authenticated, the outcome of the initial `SupabaseService.createDailyRecord`
call, the outcome of the delayed verification read
(`getDailyRecordByDate`, which rethrows lookup failures; `Bool` says whether
the record was found), and the outcome of the retried creation (consulted
only if a retry is scheduled). -/
def hookCreateRecord (hasUser : Bool) (createRes : Except ℕ Unit)
    (validateRes : Except ℕ Bool) (retryRes : Except ℕ Unit) : OpRun :=
  if !hasUser then
    { statuses := [], callerError := some AppError.noAuthenticatedUser,
      retryDelays := [], retryStatuses := [], alertShown := false }
  else
    match createRes with
    | Except.ok _ =>
      match validateRes with
      | Except.ok _ =>
        { statuses := [SyncStatus.syncing, SyncStatus.synced], callerError := none,
          retryDelays := [], retryStatuses := [], alertShown := false }
      | Except.error e =>
        { statuses := [SyncStatus.syncing, SyncStatus.synced, SyncStatus.error],
          callerError := some (AppError.backend e),
          retryDelays := [2000], retryStatuses := retryStatusList retryRes,
          alertShown := retryAlert retryRes }
    | Except.error e =>
      { statuses := [SyncStatus.syncing, SyncStatus.error],
        callerError := some (AppError.backend e),
        retryDelays := [2000], retryStatuses := retryStatusList retryRes,
        alertShown := retryAlert retryRes }

/-- `updateRecord` of `useFirebaseDailyRecords`: no retry, the first failure
is rethrown. -/
def hookUpdateRecord (res : Except ℕ Unit) : OpRun :=
  match res with
  | Except.ok _ =>
    { statuses := [SyncStatus.syncing, SyncStatus.synced], callerError := none,
      retryDelays := [], retryStatuses := [], alertShown := false }
  | Except.error e =>
    { statuses := [SyncStatus.syncing, SyncStatus.error],
      callerError := some (AppError.backend e),
      retryDelays := [], retryStatuses := [], alertShown := false }

/-- `deleteRecord` of `useFirebaseDailyRecords`: no retry, the first failure
is rethrown. -/
def hookDeleteRecord (res : Except ℕ Unit) : OpRun :=
  match res with
  | Except.ok _ =>
    { statuses := [SyncStatus.syncing, SyncStatus.synced], callerError := none,
      retryDelays := [], retryStatuses := [], alertShown := false }
  | Except.error e =>
    { statuses := [SyncStatus.syncing, SyncStatus.error],
      callerError := some (AppError.backend e),
      retryDelays := [], retryStatuses := [], alertShown := false }

/-- `createRecord` of `FirebaseRecordsProvider`: on success it sets `syncing`
on entry but never sets `synced`; on failure it sets `error` and rethrows. -/
def ctxCreateRecord (hasUser : Bool) (res : Except ℕ Unit) : OpRun :=
  if !hasUser then
    { statuses := [], callerError := some AppError.noAuthenticatedUser,
      retryDelays := [], retryStatuses := [], alertShown := false }
  else
    match res with
    | Except.ok _ =>
      { statuses := [SyncStatus.syncing], callerError := none,
        retryDelays := [], retryStatuses := [], alertShown := false }
    | Except.error e =>
      { statuses := [SyncStatus.syncing, SyncStatus.error],
        callerError := some (AppError.backend e),
        retryDelays := [], retryStatuses := [], alertShown := false }

/-- `updateRecord` of `FirebaseRecordsProvider`. -/
def ctxUpdateRecord (res : Except ℕ Unit) : OpRun :=
  match res with
  | Except.ok _ =>
    { statuses := [SyncStatus.syncing, SyncStatus.synced], callerError := none,
      retryDelays := [], retryStatuses := [], alertShown := false }
  | Except.error e =>
    { statuses := [SyncStatus.syncing, SyncStatus.error],
      callerError := some (AppError.backend e),
      retryDelays := [], retryStatuses := [], alertShown := false }

/-- `deleteRecord` of `FirebaseRecordsProvider`. -/
def ctxDeleteRecord (res : Except ℕ Unit) : OpRun :=
  match res with
  | Except.ok _ =>
    { statuses := [SyncStatus.syncing, SyncStatus.synced], callerError := none,
      retryDelays := [], retryStatuses := [], alertShown := false }
  | Except.error e =>
    { statuses := [SyncStatus.syncing, SyncStatus.error],
      callerError := some (AppError.backend e),
      retryDelays := [], retryStatuses := [], alertShown := false }

/-- Status set by the realtime subscription callback when a snapshot of
records is delivered (`setSyncStatus('synced')` in both implementations). -/
def onSnapshotStatus : SyncStatus :=
  SyncStatus.synced

/-- `getRecordByDate` (identical logic in `useFirebaseDailyRecords` and
`FirebaseRecordsProvider`): `lookup` is
`SupabaseService.getDailyRecordByDate`, keyed by the date; the `try/catch`
swallows lookup failures and returns `null`. The result is an `Except` to
record that the caller can observe a rejection: the theorems show it never
does. -/
def getRecordByDate (hasUser : Bool) (records : List DailyRecord)
    (lookup : ℤ → Except ℕ (Option DailyRecord)) (date : ℤ) :
    Except ℕ (Option DailyRecord) :=
  if !hasUser then Except.ok none
  else
    match records.find? (fun r => r.date = date) with
    | some r => Except.ok (some r)
    | none =>
      match lookup date with
      | Except.ok res => Except.ok res
      | Except.error _ => Except.ok none

/-- The row shape read by `hasUserSeenTutorial`: the `has_seen_tutorial`
column may be absent/null. -/
structure ProfileRow where
  has_seen_tutorial : Option Bool
deriving DecidableEq

/-- The `{ data, error }` pair returned by a single-row backend query;
`errorCode = some c` models an error object with code `c`. -/
structure QueryResult (α : Type) where
  data : Option α
  errorCode : Option ℕ
deriving DecidableEq

/-- The backend's `PGRST116` code ("no rows returned"), which the service
treats as a valid empty result rather than a failure. -/
def pgrst116 : ℕ :=
  116

/-- `data?.has_seen_tutorial || false`: absent row or absent field coerces to
`false`. -/
def tutorialFieldOrFalse (data : Option ProfileRow) : Bool :=
  ((data.bind (fun row => row.has_seen_tutorial)).getD false)

/-- `SupabaseService.hasUserSeenTutorial`: a query error other than
`PGRST116` is thrown and caught by the outer handler, which returns `true`
("default to true to avoid showing tutorial on error"); otherwise the field
is read with `|| false` coercion. -/
def hasUserSeenTutorial (qr : QueryResult ProfileRow) : Bool :=
  match qr.errorCode with
  | some c => if c ≠ pgrst116 then true else tutorialFieldOrFalse qr.data
  | none => tutorialFieldOrFalse qr.data

/-- `checkTutorialStatus` of `useTutorial`, returning the resulting
`showTutorial` flag. `statusCall` is the awaited result of
`hasUserSeenTutorial` (an `Except` because the hook guards it with its own
`try/catch`, whose handler sets `showTutorial` to `false`). -/
def checkTutorialStatus (isAuthenticated : Bool) (statusCall : Except ℕ Bool) : Bool :=
  if !isAuthenticated then false
  else
    match statusCall with
    | Except.ok seen => !seen
    | Except.error _ => false

/-- Tutorial-gate state: the persisted `has_seen_tutorial` flag and the
in-memory `showTutorial` flag. -/
structure TutorialState where
  hasSeenTutorial : Bool
  showTutorial : Bool
deriving DecidableEq

/-- `completeTutorial` of `useTutorial`: without a user it returns without
changing anything; otherwise it persists `has_seen_tutorial = true` via
`markTutorialAsSeen` (`markOk` says whether that call succeeds) and hides the
tutorial; the `catch` handler also hides the tutorial. -/
def completeTutorial (hasUser : Bool) (markOk : Bool) (s : TutorialState) : TutorialState :=
  if !hasUser then s
  else if markOk then { hasSeenTutorial := true, showTutorial := false }
  else { s with showTutorial := false }

/-- `skipTutorial` of `useTutorial`: logs and calls `completeTutorial`. -/
def skipTutorial (hasUser : Bool) (markOk : Bool) (s : TutorialState) : TutorialState :=
  completeTutorial hasUser markOk s

/-- A `user_settings` row (timestamps omitted). -/
structure UserSettings where
  user_id : String
  notifications : Bool
  reminder_time : String
  daily_goal : ℤ
  weekly_goal : ℤ
  theme : String
  language : String
deriving DecidableEq

/-- The `defaultSettings` literal built inside
`SupabaseService.getUserSettings`. -/
def defaultSettings (userId : String) : UserSettings :=
  { user_id := userId
    notifications := true
    reminder_time := "09:00"
    daily_goal := 2
    weekly_goal := 14
    theme := "light"
    language := "en" }

/-- Observable outcome of one `SupabaseService.getUserSettings` call: the
value returned (or the error rethrown by the outer `catch`), and the row
passed to `createUserSettings` when a lazy insert was attempted. -/
structure GetSettingsRun where
  result : Except ℕ (Option UserSettings)
  insertedRow : Option UserSettings

/-- `SupabaseService.getUserSettings`: a query error other than `PGRST116`
is thrown; when no row is returned, default settings are created via
`createUserSettings` (`insertRes` is that call's outcome; its failure
propagates through the outer `catch`, which rethrows) and the defaults are
returned; otherwise the stored row is returned unchanged. -/
def getUserSettings (userId : String) (qr : QueryResult UserSettings)
    (insertRes : Except ℕ Unit) : GetSettingsRun :=
  match qr.errorCode with
  | some c =>
    if c ≠ pgrst116 then { result := Except.error c, insertedRow := none }
    else
      match qr.data with
      | some s => { result := Except.ok (some s), insertedRow := none }
      | none =>
        match insertRes with
        | Except.ok _ =>
          { result := Except.ok (some (defaultSettings userId)),
            insertedRow := some (defaultSettings userId) }
        | Except.error e =>
          { result := Except.error e, insertedRow := some (defaultSettings userId) }
  | none =>
    match qr.data with
    | some s => { result := Except.ok (some s), insertedRow := none }
    | none =>
      match insertRes with
      | Except.ok _ =>
        { result := Except.ok (some (defaultSettings userId)),
          insertedRow := some (defaultSettings userId) }
      | Except.error e =>
        { result := Except.error e, insertedRow := some (defaultSettings userId) }

/-! ## Theorems -/

/-- C8: `skipTutorial` is an alias for `completeTutorial`: skipping performs
exactly the completion transition (persisting the flag and hiding the
tutorial), the gate state after a skip equals the state after a completion,
skipping twice in a row yields the same end state as skipping once, and with
a user present and a successful persist the end state is completed with the
tutorial hidden. -/
theorem skipTutorial_alias_idempotent :
    ∀ (hasUser markOk : Bool) (s : TutorialState),
      skipTutorial hasUser markOk s = completeTutorial hasUser markOk s ∧
      skipTutorial hasUser markOk (skipTutorial hasUser markOk s) =
        skipTutorial hasUser markOk s ∧
      skipTutorial true true s = { hasSeenTutorial := true, showTutorial := false } := by
  intro hasUser markOk s
  refine ⟨rfl, ?_, rfl⟩
  cases hasUser <;> cases markOk <;> cases s <;>
    simp [skipTutorial, completeTutorial]

/-- C6: `getRecordByDate` returns the cached record for the date when one is
present, otherwise the backend lookup's record (or `none` when absent); it
never rejects its caller: with no authenticated user, or when the backend
lookup fails, it returns `none`. -/
theorem getRecordByDate_spec :
    ∀ (hasUser : Bool) (records : List DailyRecord)
      (lookup : ℤ → Except ℕ (Option DailyRecord)) (date : ℤ),
      (∃ v, getRecordByDate hasUser records lookup date = Except.ok v) ∧
      (hasUser = false → getRecordByDate hasUser records lookup date = Except.ok none) ∧
      (∀ r, records.find? (fun r => r.date = date) = some r → hasUser = true →
        getRecordByDate hasUser records lookup date = Except.ok (some r)) ∧
      (records.find? (fun r => r.date = date) = none → hasUser = true →
        (∀ res, lookup date = Except.ok res →
          getRecordByDate hasUser records lookup date = Except.ok res) ∧
        (∀ e, lookup date = Except.error e →
          getRecordByDate hasUser records lookup date = Except.ok none)) := by
  intro hasUser records lookup date
  cases hasUser with
  | false =>
    refine ⟨⟨none, rfl⟩, fun _ => rfl, ?_, ?_⟩
    · intro r hr h
      simp at h
    · intro h1 h2
      simp at h2
  | true =>
    cases hf : records.find? (fun r => r.date = date) with
    | some r =>
      refine ⟨⟨some r, by simp [getRecordByDate, hf]⟩, ?_, ?_, ?_⟩
      · intro h
        simp at h
      · intro r2 hr2 _
        cases hr2
        simp [getRecordByDate, hf]
      · intro h _
        simp at h
    | none =>
      cases hl : lookup date with
      | ok res =>
        refine ⟨⟨res, by simp [getRecordByDate, hf, hl]⟩, ?_, ?_, ?_⟩
        · intro h
          simp at h
        · intro r2 hr2 _
          simp at hr2
        · intro _ _
          refine ⟨?_, ?_⟩
          · intro res2 hres2
            cases hres2
            simp [getRecordByDate, hf, hl]
          · intro e he
            simp at he
      | error e =>
        refine ⟨⟨none, by simp [getRecordByDate, hf, hl]⟩, ?_, ?_, ?_⟩
        · intro h
          simp at h
        · intro r2 hr2 _
          simp at hr2
        · intro _ _
          refine ⟨?_, ?_⟩
          · intro res2 hres2
            simp at hres2
          · intro e2 he2
            cases he2
            simp [getRecordByDate, hf, hl]

/-- C6 witness: concrete runs of `getRecordByDate` — a cached hit, a backend
hit, a failed lookup swallowed to `none`, and the unauthenticated case. -/
theorem getRecordByDate_spec_witness :
    getRecordByDate true [⟨5, 2, true⟩] (fun _ => Except.error 9) 5 =
      Except.ok (some ⟨5, 2, true⟩) ∧
    getRecordByDate true [] (fun _ => Except.ok (some ⟨7, 1, false⟩)) 7 =
      Except.ok (some ⟨7, 1, false⟩) ∧
    getRecordByDate true [] (fun _ => Except.error 9) 5 = Except.ok none ∧
    getRecordByDate false [⟨5, 2, true⟩] (fun _ => Except.ok none) 5 = Except.ok none := by
  refine ⟨?_, ?_, ?_, ?_⟩
  · exact (getRecordByDate_spec true [⟨5, 2, true⟩] (fun _ => Except.error 9) 5).2.2.1
      ⟨5, 2, true⟩ (by decide) rfl
  · exact ((getRecordByDate_spec true [] (fun _ => Except.ok (some ⟨7, 1, false⟩)) 7).2.2.2
      rfl rfl).1 (some ⟨7, 1, false⟩) rfl
  · exact ((getRecordByDate_spec true [] (fun _ => Except.error 9) 5).2.2.2
      rfl rfl).2 9 rfl
  · exact (getRecordByDate_spec false [⟨5, 2, true⟩] (fun _ => Except.ok none) 5).2.1 rfl

/-- C7: when the persisted tutorial-flag read fails (the query returns an
error other than the no-rows code), `hasUserSeenTutorial` defaults to `true`
("seen") so the gate does not show the tutorial; `checkTutorialStatus`'s own
error handler also hides it; the one inner path that instead shows the
tutorial is a successful query whose row or `has_seen_tutorial` field is
absent, coerced to `false`. -/
theorem tutorial_gate_fail_safe :
    ∀ (qr : QueryResult ProfileRow),
      (∀ c, qr.errorCode = some c → c ≠ pgrst116 →
        hasUserSeenTutorial qr = true ∧
        checkTutorialStatus true (Except.ok (hasUserSeenTutorial qr)) = false) ∧
      (∀ e : ℕ, checkTutorialStatus true (Except.error e) = false) ∧
      ((qr.errorCode = none ∨ qr.errorCode = some pgrst116) →
        qr.data.bind (fun row => row.has_seen_tutorial) = none →
        hasUserSeenTutorial qr = false ∧
        checkTutorialStatus true (Except.ok (hasUserSeenTutorial qr)) = true) := by
  intro qr
  refine ⟨?_, ?_, ?_⟩
  · intro c hc hne
    have h1 : hasUserSeenTutorial qr = true := by
      simp [hasUserSeenTutorial, hc, hne]
    exact ⟨h1, by simp [checkTutorialStatus, h1]⟩
  · intro e
    simp [checkTutorialStatus]
  · intro hcode hdata
    have h0 : tutorialFieldOrFalse qr.data = false := by
      simp [tutorialFieldOrFalse, hdata]
    have h1 : hasUserSeenTutorial qr = false := by
      rcases hcode with h | h <;> simp [hasUserSeenTutorial, h, h0]
    exact ⟨h1, by simp [checkTutorialStatus, h1]⟩

/-- C7 witness: a concrete failed read (error code 500) yields "seen" and a
hidden tutorial; the hook's own handler hides it; a successful read with no
row yields "not seen" and shows the tutorial. -/
theorem tutorial_gate_fail_safe_witness :
    (hasUserSeenTutorial ⟨none, some 500⟩ = true ∧
      checkTutorialStatus true (Except.ok (hasUserSeenTutorial ⟨none, some 500⟩)) = false) ∧
    checkTutorialStatus true (Except.error 500) = false ∧
    (hasUserSeenTutorial ⟨none, some pgrst116⟩ = false ∧
      checkTutorialStatus true (Except.ok (hasUserSeenTutorial ⟨none, some pgrst116⟩)) = true) :=
  ⟨(tutorial_gate_fail_safe ⟨none, some 500⟩).1 500 rfl (by decide),
   (tutorial_gate_fail_safe ⟨none, some 500⟩).2.1 500,
   (tutorial_gate_fail_safe ⟨none, some pgrst116⟩).2.2 (Or.inr rfl) rfl⟩

/-- C9: reading settings when no row exists lazily creates one with the fixed
defaults (notifications on, reminder at 09:00, daily goal 2, weekly goal 14,
light theme, English) and returns those defaults; a successful read never
yields an absent result; an existing row is returned unchanged. -/
theorem getUserSettings_lazy_defaults :
    ∀ (userId : String) (qr : QueryResult UserSettings) (insertRes : Except ℕ Unit),
      (∀ v, (getUserSettings userId qr insertRes).result = Except.ok v → v ≠ none) ∧
      (∀ s, (qr.errorCode = none ∨ qr.errorCode = some pgrst116) → qr.data = some s →
        getUserSettings userId qr insertRes =
          { result := Except.ok (some s), insertedRow := none }) ∧
      ((qr.errorCode = none ∨ qr.errorCode = some pgrst116) → qr.data = none →
        insertRes = Except.ok () →
        getUserSettings userId qr insertRes =
          { result := Except.ok (some (defaultSettings userId)),
            insertedRow := some (defaultSettings userId) } ∧
        defaultSettings userId =
          { user_id := userId, notifications := true, reminder_time := "09:00",
            daily_goal := 2, weekly_goal := 14, theme := "light", language := "en" }) := by
  intro userId qr insertRes
  obtain ⟨data, errorCode⟩ := qr
  refine ⟨?_, ?_, ?_⟩
  · intro v hv
    cases errorCode with
    | none =>
      cases data with
      | none =>
        cases insertRes with
        | ok u =>
          simp [getUserSettings] at hv
          simp [← hv]
        | error e => simp [getUserSettings] at hv
      | some s =>
        simp [getUserSettings] at hv
        simp [← hv]
    | some c =>
      by_cases hc : c = pgrst116
      · subst hc
        cases data with
        | none =>
          cases insertRes with
          | ok u =>
            simp [getUserSettings] at hv
            simp [← hv]
          | error e => simp [getUserSettings] at hv
        | some s =>
          simp [getUserSettings] at hv
          simp [← hv]
      · simp [getUserSettings, hc] at hv
  · intro s hcode hdata
    simp at hdata
    subst hdata
    rcases hcode with h | h <;> simp at h <;> subst h <;> simp [getUserSettings]
  · intro hcode hdata hins
    simp at hdata
    subst hdata
    subst hins
    rcases hcode with h | h <;> simp at h <;> subst h <;>
      exact ⟨by simp [getUserSettings], rfl⟩

/-- C9 witness: with no stored row and a successful insert, the concrete run
returns the default settings and records the inserted default row. -/
theorem getUserSettings_lazy_defaults_witness :
    getUserSettings "u1" ⟨none, none⟩ (Except.ok ()) =
      { result := Except.ok (some (defaultSettings "u1")),
        insertedRow := some (defaultSettings "u1") } ∧
    defaultSettings "u1" =
      { user_id := "u1", notifications := true, reminder_time := "09:00",
        daily_goal := 2, weekly_goal := 14, theme := "light", language := "en" } :=
  (getUserSettings_lazy_defaults "u1" ⟨none, none⟩ (Except.ok ())).2.2 (Or.inl rfl) rfl rfl

/-- C3: when the initial creation request fails, the hook's `createRecord`
rethrows the original error to its caller, schedules exactly one background
retry after 2000 ms, and raises the user-facing alert exactly when that
single retry also fails; the update and delete mutations (in both
implementations) schedule no retry and raise no alert, rethrowing their
first failure. -/
theorem createRecord_retry_policy :
    ∀ (e : ℕ) (validateRes : Except ℕ Bool) (retryRes : Except ℕ Unit),
      ((hookCreateRecord true (Except.error e) validateRes retryRes).callerError =
          some (AppError.backend e) ∧
        (hookCreateRecord true (Except.error e) validateRes retryRes).retryDelays = [2000] ∧
        ((hookCreateRecord true (Except.error e) validateRes retryRes).alertShown = true ↔
          ∃ e2, retryRes = Except.error e2)) ∧
      (∀ res : Except ℕ Unit,
        (hookUpdateRecord res).retryDelays = [] ∧ (hookUpdateRecord res).alertShown = false ∧
        (hookDeleteRecord res).retryDelays = [] ∧ (hookDeleteRecord res).alertShown = false ∧
        (ctxUpdateRecord res).retryDelays = [] ∧ (ctxUpdateRecord res).alertShown = false ∧
        (ctxDeleteRecord res).retryDelays = [] ∧ (ctxDeleteRecord res).alertShown = false ∧
        (∀ e2, res = Except.error e2 →
          (hookUpdateRecord res).callerError = some (AppError.backend e2) ∧
          (hookDeleteRecord res).callerError = some (AppError.backend e2) ∧
          (ctxUpdateRecord res).callerError = some (AppError.backend e2) ∧
          (ctxDeleteRecord res).callerError = some (AppError.backend e2))) := by
  intro e validateRes retryRes
  constructor
  · refine ⟨by simp [hookCreateRecord], by simp [hookCreateRecord], ?_⟩
    cases retryRes with
    | ok u => simp [hookCreateRecord, retryAlert]
    | error e2 => simp [hookCreateRecord, retryAlert]
  · intro res
    cases res with
    | ok u =>
      refine ⟨rfl, rfl, rfl, rfl, rfl, rfl, rfl, rfl, ?_⟩
      intro e2 h
      simp at h
    | error e1 =>
      refine ⟨rfl, rfl, rfl, rfl, rfl, rfl, rfl, rfl, ?_⟩
      intro e2 h
      cases h
      exact ⟨rfl, rfl, rfl, rfl⟩

/-- C3 witness: a concrete failed creation (error 7) with a failing retry
(error 3): the caller sees error 7, one retry is scheduled at 2000 ms, the
alert fires; a concrete failed update (error 4) schedules no retry and
surfaces error 4. -/
theorem createRecord_retry_policy_witness :
    (hookCreateRecord true (Except.error 7) (Except.ok true) (Except.error 3)).callerError =
      some (AppError.backend 7) ∧
    (hookCreateRecord true (Except.error 7) (Except.ok true) (Except.error 3)).retryDelays =
      [2000] ∧
    (hookCreateRecord true (Except.error 7) (Except.ok true) (Except.error 3)).alertShown =
      true ∧
    (hookUpdateRecord (Except.error 4)).retryDelays = [] ∧
    (hookUpdateRecord (Except.error 4)).callerError = some (AppError.backend 4) := by
  have h1 := (createRecord_retry_policy 7 (Except.ok true) (Except.error 3)).1
  have h2 := (createRecord_retry_policy 7 (Except.ok true) (Except.error 3)).2
      (Except.error 4)
  exact ⟨h1.1, h1.2.1, h1.2.2.mpr ⟨3, rfl⟩, h2.1, (h2.2.2.2.2.2.2.2.2 4 rfl).1⟩

/-- C5 counterexample: a successful `createRecord` of the
`FirebaseRecordsProvider` context — a mutation path of a record-store
implementation — sets `syncing` on entry but never sets `synced`: its last
status assignment is `syncing`, refuting "a successful completion sets it to
synced" for every mutation path of both implementations. -/
theorem syncStatus_claim_counterexample :
    (ctxCreateRecord true (Except.ok ())).statuses = [SyncStatus.syncing] ∧
    (ctxCreateRecord true (Except.ok ())).statuses.getLast? = some SyncStatus.syncing ∧
    (ctxCreateRecord true (Except.ok ())).statuses.getLast? ≠ some SyncStatus.synced ∧
    SyncStatus.synced ∉ (ctxCreateRecord true (Except.ok ())).statuses := by
  refine ⟨rfl, rfl, by decide, by decide⟩

/-- C5 (amended): the sync status takes only the values `synced`, `syncing`,
`error`; every mutating operation sets `syncing` on entry and `error` on
failure; a successful completion sets `synced` on every mutation path of both
implementations except the context provider's `createRecord`, which leaves
the status at `syncing` until the next delivered snapshot sets `synced`. -/
theorem syncStatus_transitions_amended :
    (∀ s : SyncStatus, s = SyncStatus.synced ∨ s = SyncStatus.syncing ∨ s = SyncStatus.error) ∧
    (∀ (res : Except ℕ Unit) (validateRes : Except ℕ Bool) (retryRes : Except ℕ Unit),
      ((hookCreateRecord true res validateRes retryRes).statuses.head? =
          some SyncStatus.syncing ∧
        (hookUpdateRecord res).statuses.head? = some SyncStatus.syncing ∧
        (hookDeleteRecord res).statuses.head? = some SyncStatus.syncing ∧
        (ctxCreateRecord true res).statuses.head? = some SyncStatus.syncing ∧
        (ctxUpdateRecord res).statuses.head? = some SyncStatus.syncing ∧
        (ctxDeleteRecord res).statuses.head? = some SyncStatus.syncing) ∧
      (∀ e, res = Except.error e →
        (hookCreateRecord true res validateRes retryRes).statuses.getLast? =
          some SyncStatus.error ∧
        (hookUpdateRecord res).statuses.getLast? = some SyncStatus.error ∧
        (hookDeleteRecord res).statuses.getLast? = some SyncStatus.error ∧
        (ctxCreateRecord true res).statuses.getLast? = some SyncStatus.error ∧
        (ctxUpdateRecord res).statuses.getLast? = some SyncStatus.error ∧
        (ctxDeleteRecord res).statuses.getLast? = some SyncStatus.error) ∧
      (res = Except.ok () →
        (hookCreateRecord true res (Except.ok true) retryRes).statuses.getLast? =
          some SyncStatus.synced ∧
        (hookUpdateRecord res).statuses.getLast? = some SyncStatus.synced ∧
        (hookDeleteRecord res).statuses.getLast? = some SyncStatus.synced ∧
        (ctxUpdateRecord res).statuses.getLast? = some SyncStatus.synced ∧
        (ctxDeleteRecord res).statuses.getLast? = some SyncStatus.synced ∧
        (ctxCreateRecord true res).statuses.getLast? = some SyncStatus.syncing ∧
        onSnapshotStatus = SyncStatus.synced)) := by
  constructor
  · intro s
    cases s with
    | synced => exact Or.inl rfl
    | syncing => exact Or.inr (Or.inl rfl)
    | error => exact Or.inr (Or.inr rfl)
  · intro res validateRes retryRes
    refine ⟨?_, ?_, ?_⟩
    · cases res with
      | ok u =>
        cases validateRes with
        | ok b => exact ⟨rfl, rfl, rfl, rfl, rfl, rfl⟩
        | error e2 => exact ⟨rfl, rfl, rfl, rfl, rfl, rfl⟩
      | error e1 => exact ⟨rfl, rfl, rfl, rfl, rfl, rfl⟩
    · intro e h
      subst h
      exact ⟨rfl, rfl, rfl, rfl, rfl, rfl⟩
    · intro h
      subst h
      exact ⟨rfl, rfl, rfl, rfl, rfl, rfl, rfl⟩

/-- C5 witness: concrete transitions — a failed update (error 5) ends at
`error`; a successful update ends at `synced`; a successful context create
ends at `syncing` while the snapshot delivery sets `synced`. -/
theorem syncStatus_transitions_amended_witness :
    (hookUpdateRecord (Except.error 5)).statuses.getLast? = some SyncStatus.error ∧
    (hookUpdateRecord (Except.ok ())).statuses.getLast? = some SyncStatus.synced ∧
    (ctxCreateRecord true (Except.ok ())).statuses.getLast? = some SyncStatus.syncing ∧
    onSnapshotStatus = SyncStatus.synced := by
  have hf := (syncStatus_transitions_amended.2 (Except.error 5) (Except.ok true)
      (Except.ok ())).2.1 5 rfl
  have hs := (syncStatus_transitions_amended.2 (Except.ok ()) (Except.ok true)
      (Except.ok ())).2.2 rfl
  exact ⟨hf.2.1, hs.2.1, hs.2.2.2.2.2.1, hs.2.2.2.2.2.2⟩

/-- Helper: the two-stage filter of the implementation counts exactly the
records that are completed and inside the trailing 30-day window. -/
theorem completedLast30Days_eq_countP (now : ℤ) (records : List DailyRecord) :
    completedLast30Days now records =
      records.countP (fun r => r.completed && decide (now - 30 * msPerDay ≤ r.date)) := by
  rw [completedLast30Days, last30DaysRecords, List.filter_filter,
    ← List.countP_eq_length_filter]

/-- C2: the completion rate divides the count of completed records inside the
trailing 30-day window by the constant 30 (times 100) — in `calculateStats`
and in `calculateMonthlyProgress` alike, whose reported `totalDays` is the
constant 30; a five-day-old account with five completed days therefore
reports `(5/30)*100`, not 100. -/
theorem completionRate_fixed_denominator :
    (∀ (now : ℤ) (records : List DailyRecord),
      (calculateStats now records).completionRate = specCompletionRate now records ∧
      (calculateMonthlyProgress now records).completionRate = specCompletionRate now records ∧
      (calculateMonthlyProgress now records).totalDays = 30) ∧
    (calculateStats 0 fiveDayAccount).completionRate = (5 : ℚ) / 30 * 100 ∧
    (calculateStats 0 fiveDayAccount).completionRate ≠ 100 := by
  have key : ∀ (now : ℤ) (records : List DailyRecord),
      (calculateStats now records).completionRate = specCompletionRate now records := by
    intro now records
    show ((completedLast30Days now records : ℚ) / 30) * 100 = specCompletionRate now records
    rw [completedLast30Days_eq_countP, specCompletionRate]
  have hcount : fiveDayAccount.countP
      (fun r => r.completed && decide ((0 : ℤ) - 30 * msPerDay ≤ r.date)) = 5 := by decide
  have hconc : (calculateStats 0 fiveDayAccount).completionRate = (5 : ℚ) / 30 * 100 := by
    rw [key, specCompletionRate, hcount]
    norm_num
  refine ⟨?_, hconc, ?_⟩
  · intro now records
    refine ⟨key now records, ?_, rfl⟩
    show ((((last30DaysRecords now records).filter (fun r => r.completed)).length : ℚ) / 30)
        * 100 = specCompletionRate now records
    rw [show ((last30DaysRecords now records).filter (fun r => r.completed)).length =
        completedLast30Days now records from rfl, completedLast30Days_eq_countP,
      specCompletionRate]
  · rw [hconc]
    norm_num

/-- C4: `totalDays` counts the completed records, `totalCapsules` sums
`capsules` over exactly those records, and `averageCapsules` is the exact
quotient `totalCapsules / totalDays` when at least one day is completed and 0
otherwise. -/
theorem totals_and_average_spec :
    ∀ (now : ℤ) (records : List DailyRecord),
      (calculateStats now records).totalDays = specTotalDays records ∧
      (calculateStats now records).totalCapsules = specTotalCapsules records ∧
      (calculateStats now records).averageCapsules =
        (if specTotalDays records = 0 then 0
         else (specTotalCapsules records : ℚ) / (specTotalDays records : ℚ)) := by
  intro now records
  have hdays : (calculateStats now records).totalDays = specTotalDays records := by
    show (completedRecords records).length = specTotalDays records
    rw [specTotalDays, List.countP_eq_length_filter, completedRecords]
  have hcaps : (calculateStats now records).totalCapsules = specTotalCapsules records := by
    show (completedRecords records).foldl (fun sum r => sum + r.capsules) 0 =
      specTotalCapsules records
    rw [specTotalCapsules, List.sum_eq_foldl, List.foldl_map, completedRecords]
  refine ⟨hdays, hcaps, ?_⟩
  have havg : (calculateStats now records).averageCapsules =
      (if (calculateStats now records).totalDays > 0
       then ((calculateStats now records).totalCapsules : ℚ) /
         ((calculateStats now records).totalDays : ℚ)
       else 0) := rfl
  rw [havg, hdays, hcaps]
  by_cases h : specTotalDays records = 0
  · simp [h]
  · simp [h, Nat.pos_of_ne_zero h]

/-- C10: the 30-day window filter has no upper date bound — any completed
record dated now or later is counted — and the completion rate is uncapped:
more than 30 completed records inside the window push it above 100. -/
theorem completionRate_unbounded :
    ∀ (now : ℤ) (records : List DailyRecord),
      (∀ r ∈ records, r.completed = true → now ≤ r.date →
        r ∈ (last30DaysRecords now records).filter (fun r => r.completed)) ∧
      (30 < completedLast30Days now records →
        100 < (calculateStats now records).completionRate) := by
  intro now records
  constructor
  · intro r hmem hcomp hfuture
    rw [List.mem_filter]
    refine ⟨?_, hcomp⟩
    rw [last30DaysRecords, List.mem_filter]
    refine ⟨hmem, ?_⟩
    have hpos : (0 : ℤ) < msPerDay := by decide
    have : now - 30 * msPerDay ≤ r.date := by
      have h30 : (0 : ℤ) ≤ 30 * msPerDay := by positivity
      omega
    simpa using this
  · intro h
    have hc : (30 : ℚ) < (completedLast30Days now records : ℚ) := by exact_mod_cast h
    show (100 : ℚ) < ((completedLast30Days now records : ℚ) / 30) * 100
    rw [div_mul_eq_mul_div, lt_div_iff₀ (by norm_num : (0 : ℚ) < 30)]
    nlinarith

/-- C10 witness: a single completed record dated one day in the future (at
`now = 0`) passes the window filter; 31 completed records dated today give a
completion rate above 100. -/
theorem completionRate_unbounded_witness :
    (⟨msPerDay, 2, true⟩ : DailyRecord) ∈
      (last30DaysRecords 0 [⟨msPerDay, 2, true⟩]).filter (fun r => r.completed) ∧
    100 < (calculateStats 0 (List.replicate 31 ⟨0, 2, true⟩)).completionRate := by
  constructor
  · exact (completionRate_unbounded 0 [⟨msPerDay, 2, true⟩]).1
      ⟨msPerDay, 2, true⟩ (by decide) rfl (by decide)
  · exact (completionRate_unbounded 0 (List.replicate 31 ⟨0, 2, true⟩)).2 (by decide)

/-- Helper: a day has a positive length in milliseconds. -/
theorem msPerDay_pos : (0 : ℤ) < msPerDay := by decide

/-- Helper: projecting a timestamp to its calendar day is monotone. -/
theorem toDateString_mono {a b : ℤ} (h : a ≤ b) : toDateString a ≤ toDateString b :=
  Int.ediv_le_ediv msPerDay_pos h

/-- Helper: the descending-date comparator is transitive. -/
theorem byDateDesc_trans : ∀ a b c : DailyRecord,
    byDateDesc a b = true → byDateDesc b c = true → byDateDesc a c = true := by
  intro a b c hab hbc
  simp only [byDateDesc, decide_eq_true_eq] at hab hbc ⊢
  exact le_trans hbc hab

/-- Helper: the descending-date comparator is total. -/
theorem byDateDesc_total : ∀ a b : DailyRecord,
    (byDateDesc a b || byDateDesc b a) = true := by
  intro a b
  simp only [byDateDesc, Bool.or_eq_true, decide_eq_true_eq]
  exact le_total b.date a.date

/-- Helper: the sorted record list is pairwise descending by date. -/
theorem sortedRecords_sorted (records : List DailyRecord) :
    List.Pairwise (fun a b : DailyRecord => b.date ≤ a.date) (sortedRecords records) := by
  have h := List.sorted_mergeSort byDateDesc_trans byDateDesc_total (completedRecords records)
  refine h.imp ?_
  intro a b hab
  simpa [byDateDesc] using hab

/-- Helper: walking a list whose day projections are exactly the consecutive
run `today - i, today - (i+1), ...` of length `m` yields streak `m`. -/
theorem streakWalk_of_run (today : ℤ) :
    ∀ (l : List DailyRecord) (i m : ℕ),
      l.map (fun r => toDateString r.date) =
        (List.range m).map (fun j : ℕ => today - ((i : ℤ) + (j : ℤ))) →
      streakWalk today i l = m := by
  intro l
  induction l with
  | nil =>
    intro i m h
    cases m with
    | zero => rfl
    | succ m2 =>
      rw [List.range_succ_eq_map] at h
      simp at h
  | cons r rs ih =>
    intro i m h
    cases m with
    | zero => simp at h
    | succ m2 =>
      rw [List.range_succ_eq_map] at h
      simp only [List.map_cons, List.map_map] at h
      injection h with h1 h2
      have h1' : toDateString r.date = today - (i : ℤ) := by
        rw [h1]
        push_cast
        ring
      have h2' : rs.map (fun r => toDateString r.date) =
          (List.range m2).map (fun j : ℕ => today - (((i + 1 : ℕ) : ℤ) + (j : ℤ))) := by
        rw [h2]
        apply List.map_congr_left
        intro j hj
        simp only [Function.comp_apply]
        push_cast
        ring
      show (if toDateString r.date = today - (i : ℤ)
          then streakWalk today (i + 1) rs + 1 else 0) = m2 + 1
      rw [if_pos h1', ih (i + 1) m2 h2']

/-- C1: when the completed records' calendar days are exactly the `n`
consecutive days ending today (dates compared day-only, ignoring
time-of-day), `calculateStats` reports `currentStreak = n`; and whenever no
completed record falls on today's calendar day, it reports `currentStreak =
0` regardless of any historical run. -/
theorem currentStreak_spec :
    ∀ (now : ℤ) (records : List DailyRecord) (n : ℕ),
      (((completedRecords records).map (fun r => toDateString r.date)).Perm
          ((List.range n).map (fun i : ℕ => toDateString now - (i : ℤ))) →
        (calculateStats now records).currentStreak = n) ∧
      (toDateString now ∉ (completedRecords records).map (fun r => toDateString r.date) →
        (calculateStats now records).currentStreak = 0) := by
  intro now records n
  have hcs : (calculateStats now records).currentStreak =
      streakWalk (toDateString now) 0 (sortedRecords records) := rfl
  have hperm : (sortedRecords records).Perm (completedRecords records) :=
    List.mergeSort_perm (completedRecords records) byDateDesc
  constructor
  · intro h
    have hmapperm : ((sortedRecords records).map (fun r => toDateString r.date)).Perm
        ((List.range n).map (fun i : ℕ => toDateString now - (i : ℤ))) :=
      (hperm.map _).trans h
    have hsorted1 : List.Sorted (fun a b : ℤ => b ≤ a)
        ((sortedRecords records).map (fun r => toDateString r.date)) := by
      refine List.Pairwise.map _ ?_ (sortedRecords_sorted records)
      intro a b hab
      exact toDateString_mono hab
    have hsorted2 : List.Sorted (fun a b : ℤ => b ≤ a)
        ((List.range n).map (fun i : ℕ => toDateString now - (i : ℤ))) := by
      refine List.Pairwise.map _ ?_ (List.pairwise_lt_range n)
      intro a b hab
      have hab' : (a : ℤ) ≤ (b : ℤ) := by exact_mod_cast hab.le
      omega
    have heq : (sortedRecords records).map (fun r => toDateString r.date) =
        (List.range n).map (fun i : ℕ => toDateString now - (i : ℤ)) :=
      List.eq_of_perm_of_sorted hmapperm hsorted1 hsorted2
    rw [hcs]
    apply streakWalk_of_run
    rw [heq]
    apply List.map_congr_left
    intro j hj
    push_cast
    ring
  · intro h
    rw [hcs]
    cases hs : sortedRecords records with
    | nil => rfl
    | cons r rs =>
      have hr : r ∈ completedRecords records := by
        have hmem : r ∈ sortedRecords records := by
          rw [hs]
          exact List.mem_cons_self r rs
        exact hperm.mem_iff.mp hmem
      have hd : toDateString r.date ∈
          (completedRecords records).map (fun r => toDateString r.date) :=
        List.mem_map_of_mem _ hr
      have hne : toDateString r.date ≠ toDateString now - ((0 : ℕ) : ℤ) := by
        intro he
        have he' : toDateString r.date = toDateString now := by
          rw [he]
          push_cast
          ring
        exact h (he' ▸ hd)
      show (if toDateString r.date = toDateString now - ((0 : ℕ) : ℤ)
          then streakWalk (toDateString now) (0 + 1) rs + 1 else 0) = 0
      rw [if_neg hne]

/-- C1 witness: two completed records on today and yesterday (with arbitrary
times of day) give streak 2; a single completed record on yesterday only
(today absent) gives streak 0. -/
theorem currentStreak_spec_witness :
    (calculateStats (2 * msPerDay + 500)
        [⟨2 * msPerDay + 3600000, 3, true⟩, ⟨msPerDay + 7, 2, true⟩]).currentStreak = 2 ∧
    (calculateStats (2 * msPerDay + 500) [⟨msPerDay + 7, 2, true⟩]).currentStreak = 0 :=
  ⟨(currentStreak_spec (2 * msPerDay + 500)
      [⟨2 * msPerDay + 3600000, 3, true⟩, ⟨msPerDay + 7, 2, true⟩] 2).1 (by decide),
   (currentStreak_spec (2 * msPerDay + 500) [⟨msPerDay + 7, 2, true⟩] 0).2 (by decide)⟩

end MaxApp
